import Mathlib

/-!
Verification of the pod-to-DNS controller (`controller.py`).

The controller keeps a DNS zone and a cluster-visible peer list (a ConfigMap)
synchronized with the set of pods matching a label selector.  This file gives a
shallow embedding of the pure controller logic and of its effectful
operations (DNS client, ConfigMap sink, reconciliation pass, event handlers),
with Python strings modelled as `List Char`, Python exceptions as `Except`,
and the external world (cluster list result, DNS readiness, HTTP responses)
as an explicit `World` record.
-/

/-- Python strings are modelled as lists of characters. -/
abbrev Str := List Char

/-! ## String utilities (Python `str.strip`, `str.split`, `in`, `lower`) -/

/-- Model of Python `s.strip(chars)` as `stripWith p s`: removes leading and
trailing characters satisfying `p`. -/
def stripWith (p : Char → Bool) (s : Str) : Str :=
  ((s.reverse.dropWhile p).reverse).dropWhile p

/-- ASCII whitespace recognised by the default Python `str.strip()`. -/
def pyWS (c : Char) : Bool :=
  c = ' ' || c = '\t' || c = '\n' || c = '\r' || c = '\x0b' || c = '\x0c'

/-- Python `s.strip()` (ASCII whitespace; the controller inputs are ASCII). -/
def pyStrip (s : Str) : Str := stripWith pyWS s

/-- Python `s.split(sep)` for a one-character separator: the result always has
at least one piece, and `"".split(",") = [""]`. -/
def splitOnChar (sep : Char) : Str → List Str
  | [] => [[]]
  | c :: cs =>
    match splitOnChar sep cs with
    | [] => [[]]
    | r :: rs => if c = sep then [] :: r :: rs else (c :: r) :: rs

/-- Python `s.split("=", 1)`: `none` when `s` contains no equals sign, otherwise the
pieces before and after the first one. -/
def splitFirstEq : Str → Option (Str × Str)
  | [] => none
  | c :: cs =>
    if c = '=' then some ([], cs)
    else
      match splitFirstEq cs with
      | none => none
      | some (k, v) => some (c :: k, v)

/-- Lexicographic (code-point) order on strings, as Python compares `str`. -/
def strLe : Str → Str → Bool
  | [], _ => true
  | _ :: _, [] => false
  | a :: as, b :: bs => if a < b then true else if b < a then false else strLe as bs

/-- Python `s.startswith(pat)` on character lists. -/
def startsWithL : Str → Str → Bool
  | [], _ => true
  | _ :: _, [] => false
  | a :: as, b :: bs => a = b && startsWithL as bs

/-- Python `pat in s` (substring containment). -/
def containsSub (pat : Str) : Str → Bool
  | [] => pat = []
  | c :: rest => startsWithL pat (c :: rest) || containsSub pat rest

/-- Python `s.lower()` restricted to ASCII case folding (the strings compared
by the controller are ASCII HTTP bodies and the ASCII pattern `"not found"`). -/
def lowerStr (s : Str) : Str := s.map Char.toLower

/-- Decimal rendering of a natural number, as Python `str(int(...))`. -/
def natToStr (n : Nat) : Str := Nat.toDigits 10 n

/-! ## Selector matcher (`_match_selector`) -/

/-- First-match association-list lookup, modelling Python `dict.get` (label
maps come from Kubernetes metadata and have unique keys). -/
def lookupA : List (Str × Str) → Str → Option Str
  | [], _ => none
  | p :: rest, k => if p.1 = k then some p.2 else lookupA rest k

/-- Python `k in labels` for a dict: key membership. -/
def hasKey (labels : List (Str × Str)) (k : Str) : Bool :=
  labels.any (fun p => p.1 = k)

/-- The loop body of `_match_selector`: processes the clause list with the
early short-circuiting via `return False` in the source. -/
def matchClauses (labels : List (Str × Str)) : List Str → Bool
  | [] => true
  | c :: rest =>
    let clause := pyStrip c
    if clause = [] then matchClauses labels rest
    else
      match splitFirstEq clause with
      | some (k, v) =>
        if lookupA labels (pyStrip k) = some (pyStrip v) then matchClauses labels rest
        else false
      | none =>
        if hasKey labels clause then matchClauses labels rest else false

/-- Source function `_match_selector(labels, selector)`: empty selector matches
everything; otherwise every comma-separated clause must hold. -/
def matchSelector (labels : List (Str × Str)) (selector : Str) : Bool :=
  if selector = [] then true
  else matchClauses labels (splitOnChar ',' selector)

/-- Satisfaction of one selector clause, as the source evaluates it: the
clause is trimmed, an empty clause is skipped, an equals clause compares
`labels.get(key.strip())` with `value.strip()`, and a bare clause requires key
membership. -/
def clauseHolds (labels : List (Str × Str)) (c : Str) : Bool :=
  let clause := pyStrip c
  if clause = [] then true
  else
    match splitFirstEq clause with
    | some (k, v) => lookupA labels (pyStrip k) = some (pyStrip v)
    | none => hasKey labels clause

/-- Satisfaction of one selector clause exactly as the claim words it: the
clause is trimmed and split at the first equals sign, but the key and value pieces
are NOT trimmed before the lookup and comparison. -/
def clauseHoldsClaimed (labels : List (Str × Str)) (c : Str) : Bool :=
  let clause := pyStrip c
  if clause = [] then true
  else
    match splitFirstEq clause with
    | some (k, v) => lookupA labels k = some v
    | none => hasKey labels clause

/-! ## Pods and peers -/

/-- Field `status.pod_ip` of a pod (`none` models Python `None`). -/
structure PodStatus where
  podIp : Option Str
deriving DecidableEq

/-- The view of a pod the controller reads: `metadata.name`,
`metadata.namespace` (guaranteed present by the cluster API contract),
`metadata.labels` (possibly `None`) and `status` (possibly `None`). -/
structure PodView where
  name : Str
  ns : Str
  labels : Option (List (Str × Str))
  status : Option PodStatus
deriving DecidableEq

/-- One projected peer record `{name, namespace, ip}`. -/
structure Peer where
  name : Str
  ns : Str
  ip : Str
deriving DecidableEq

/-- Model of `(pod.status and pod.status.pod_ip) or None`: the reported IP, where a
missing status, a missing IP and an empty-string IP are all falsy. -/
def ipOf (p : PodView) : Option Str :=
  match p.status with
  | none => none
  | some st =>
    match st.podIp with
    | none => none
    | some ip => if ip = [] then none else some ip

/-- The body of the `build_peers` loop: pods without a truthy IP are skipped,
the rest are mapped to `{name, namespace, ip}`. -/
def podToPeer (p : PodView) : Option Peer :=
  match ipOf p with
  | none => none
  | some ip => some ⟨p.name, p.ns, ip⟩

/-- The sort key comparison `key=lambda x: (x["namespace"], x["name"])`:
lexicographic order on the pair of Python strings. -/
def peerLe (a b : Peer) : Bool :=
  if a.ns = b.ns then strLe a.name b.name else strLe a.ns b.ns

/-- Relation form of `peerLe`, for `List.insertionSort`. -/
def peerLeP (a b : Peer) : Prop := peerLe a b = true

instance : DecidableRel peerLeP := fun a b => by unfold peerLeP; infer_instance

/-- The sort key of a peer. -/
def peerKey (x : Peer) : Str × Str := (x.ns, x.name)

/-- Source function `build_peers(pods)`: filter to pods with a truthy IP, map to peer records,
and sort by `(namespace, name)`.  the Python `list.sort` is a stable sort by a
total preorder, so it computes the same list as stable insertion sort. -/
def build_peers (pods : List PodView) : List Peer :=
  List.insertionSort peerLeP (pods.filterMap podToPeer)

/-! ## Sink document encodings and `upsert_configmap` -/

/-- Lower-case hexadecimal digit, as produced by the Python JSON encoder. -/
def hexDigit (n : Nat) : Char :=
  if n < 10 then Char.ofNat (48 + n) else Char.ofNat (87 + n)

/-- Four-digit hexadecimal rendering used in `\uXXXX` escapes. -/
def hex4 (n : Nat) : Str :=
  [hexDigit (n / 4096 % 16), hexDigit (n / 256 % 16), hexDigit (n / 16 % 16), hexDigit (n % 16)]

/-- Escaping of one character by `json.dumps` (default `ensure_ascii=True`):
quote, backslash and the short escapes specially; every character outside
`0x20`–`0x7e` as `\uXXXX` (with a surrogate pair above `0xffff`). -/
def jsonEscapeChar (c : Char) : Str :=
  if c = '"' then ['\\', '"']
  else if c = '\\' then ['\\', '\\']
  else if c = '\n' then ['\\', 'n']
  else if c = '\t' then ['\\', 't']
  else if c = '\r' then ['\\', 'r']
  else if c = '\x08' then ['\\', 'b']
  else if c = '\x0c' then ['\\', 'f']
  else if c.toNat < 32 || c.toNat > 126 then
    if c.toNat ≤ 65535 then '\\' :: 'u' :: hex4 c.toNat
    else
      ('\\' :: 'u' :: hex4 (55296 + (c.toNat - 65536) / 1024)) ++
        ('\\' :: 'u' :: hex4 (56320 + (c.toNat - 65536) % 1024))
  else [c]

/-- A JSON string literal. -/
def jsonStr (s : Str) : Str := '"' :: (s.map jsonEscapeChar).flatten ++ ['"']

/-- One peer dict as rendered inside `json.dumps(peers, indent=2)` (keys in
insertion order `name`, `namespace`, `ip`; nested at list-item indent 2). -/
def peerJson (p : Peer) : Str :=
  ("\x7b\n    \"name\": ").toList ++ jsonStr p.name ++
    (",\n    \"namespace\": ").toList ++ jsonStr p.ns ++
    (",\n    \"ip\": ").toList ++ jsonStr p.ip ++ ("\n  \x7d").toList

/-- Model of `json.dumps(peers, indent=2)`. -/
def peersJson : List Peer → Str
  | [] => ("[]").toList
  | p :: ps =>
    ("[\n  ").toList ++ List.intercalate ((",\n  ").toList) ((p :: ps).map peerJson) ++
      ("\n]").toList

/-- Model of the flat IP list field, `"\n".join(ips) + ("\n" if peers else "")`. -/
def flatList (peers : List Peer) : Str :=
  List.intercalate ['\n'] (peers.map Peer.ip) ++ (if peers = [] then [] else ['\n'])

/-- The environment-derived configuration the controller reads at import time. -/
structure Config where
  recPref : Str
  zone : Str
  selector : Str
  cmName : Str
  cmNs : Str
  fileJson : Str
  fileList : Str
  bumpKey : Str

/-- The `data` dict written to the sink ConfigMap: the JSON encoding under the
JSON file name, the flat IP list under the list file name. -/
def cmData (cfg : Config) (peers : List Peer) : List (Str × Str) :=
  [(cfg.fileJson, peersJson peers), (cfg.fileList, flatList peers)]

/-- ConfigMap metadata: name, namespace, the annotation dict (possibly
`None`), and `restMeta`, a stand-in for every other metadata field
(labels, resourceVersion, uid, ...) that the controller never touches. -/
structure ObjectMeta where
  name : Str
  ns : Str
  annotations : Option (List (Str × Str))
  restMeta : Nat
deriving DecidableEq

/-- A ConfigMap: metadata plus the string-valued `data` dict. -/
structure ConfigMap where
  metadata : ObjectMeta
  data : List (Str × Str)
deriving DecidableEq

/-- Python dict assignment `d[k] = v` on an insertion-ordered association
list: an existing key is updated in place, a new key is appended. -/
def updAnn (m : List (Str × Str)) (k v : Str) : List (Str × Str) :=
  if m.any (fun p => p.1 = k) then m.map (fun p => if p.1 = k then (k, v) else p)
  else m ++ [(k, v)]

/-- The write `upsert_configmap` finally issues. -/
inductive SinkWrite where
  | replace (cm : ConfigMap)
  | create (cm : ConfigMap)
deriving DecidableEq

/-- The `data` dict carried by a sink write. -/
def writeData : SinkWrite → List (Str × Str)
  | .replace cm => cm.data
  | .create cm => cm.data

/-- Source function `upsert_configmap(peers)`.  The `try` block reads the
existing ConfigMap (`readRes` is the outcome: the document, or the
`ApiException` status), replaces its `data` wholesale, bumps the last-update
annotation and issues the replace write (`replaceErr` is that write: `none`
on success, or the `ApiException` status it raises).  Any `ApiException` from
the try block with status 404 — a missing document on read, or a 404 from the
replace — falls to the `except` branch, which creates a fresh document
(`createErr` is that write outcome; a create failure is not caught and
propagates); any other status is re-raised. -/
def upsert_configmap (cfg : Config) (peers : List Peer) (readRes : Except Nat ConfigMap)
    (replaceErr : Option Nat) (createErr : Option Nat) (now : Nat) : Except Nat SinkWrite :=
  let data := cmData cfg peers
  let tryBody : Except Nat SinkWrite :=
    match readRes with
    | .error s => .error s
    | .ok existing =>
      let anns := existing.metadata.annotations.getD []
      match replaceErr with
      | some s => .error s
      | none =>
        .ok (.replace { existing with
          data := data,
          metadata := { existing.metadata with
            annotations := some (updAnn anns cfg.bumpKey (natToStr now)) } })
  match tryBody with
  | .ok wr => .ok wr
  | .error s =>
    if s = 404 then
      match createErr with
      | some s2 => .error s2
      | none =>
        .ok (.create
          { metadata :=
              { name := cfg.cmName, ns := cfg.cmNs,
                annotations := some [(cfg.bumpKey, natToStr now)], restMeta := 0 },
            data := data })
    else .error s

/-! ## DNS client -/

/-- Source function `fqdn_for_pod(pod_name)`: the concatenation of the record
prefix and the pod name, dot-stripped by `.strip(".")`,
followed by `"." + DNS_ZONE`. -/
def fqdn_for_pod (cfg : Config) (podName : Str) : Str :=
  stripWith (fun c => c = '.') (cfg.recPref ++ podName) ++ '.' :: cfg.zone

/-- The FQDN exactly as the claim words it: `<prefix><pod-name>.<zone>`,
with no stripping of dots. -/
def fqdnClaimed (cfg : Config) (podName : Str) : Str :=
  cfg.recPref ++ podName ++ '.' :: cfg.zone

/-- Source function `pdns_upsert_a_record` given the HTTP response
`(status, body)` of the
zone PATCH: raises `RuntimeError` (the response) iff the status is `>= 400`. -/
def pdns_upsert_a_record (resp : Nat × Str) : Except (Nat × Str) Unit :=
  if 400 ≤ resp.1 then .error resp else .ok ()

/-- Source function `pdns_delete_a_record` given the HTTP response
`(status, body)` of the
zone PATCH: raises iff the status is `>= 400` and `"not found"` is not a
substring of the lower-cased body. -/
def pdns_delete_a_record (resp : Nat × Str) : Except (Nat × Str) Unit :=
  if 400 ≤ resp.1 ∧ ¬ containsSub (("not found").toList) (lowerStr resp.2) = true then
    .error resp
  else .ok ()

/-- The retry loop of `pdns_upsert_with_retry`, with the HTTP response of the
`i`-th upsert call (0-based, `i` counts calls already made) given by `resp`.
Returns the Boolean result together with the total number of upsert calls
made; the `try/except` around each attempt is the `match`, so no exception
escapes. -/
def retryFrom (resp : Nat → Nat × Str) : Nat → Nat → Bool × Nat
  | 0, i => (false, i)
  | k + 1, i =>
    match pdns_upsert_a_record (resp i) with
    | .ok _ => (true, i + 1)
    | .error _ => retryFrom resp (k) (i + 1)

/-- Source function `pdns_upsert_with_retry` with `attempts` attempts: runs the retry
loop from call index 0.  The sleep between attempts has no effect on the
result and is not modelled. -/
def pdns_upsert_with_retry (resp : Nat → Nat × Str) (attempts : Nat) : Bool × Nat :=
  retryFrom resp attempts 0

/-! ## The reconciliation pass and its callers -/

/-- The external state a reconciliation pass or event handler interacts with:
the outcome of the cluster pod listing, DNS readiness, the per-peer result of
the upsert-with-retry wrapper (which never raises), the HTTP response a DNS
delete would receive, the outcome of the sink ConfigMap read, the outcomes of a sink replace or
create write were one issued, and the clock. -/
structure World where
  listPods : Except Nat (List PodView)
  dnsReady : Bool
  upsertOk : Str → Str → Bool
  deleteResp : Nat × Str
  sinkRead : Except Nat ConfigMap
  sinkReplaceErr : Option Nat
  sinkCreateErr : Option Nat
  now : Nat

/-- Source function `reconcile_all(reason)`: list pods (propagating any
listing error), build
peers, issue one upsert-with-retry per peer when DNS is ready (none
otherwise), then publish to the sink (propagating any sink error).  On
success, returns the `(fqdn, ip)` pairs that were sent to DNS and the sink
write that was issued.  There is no `try/except` in this function: errors
propagate to the caller. -/
def reconcile_all (cfg : Config) (w : World) :
    Except Nat (List (Str × Str) × SinkWrite) :=
  match w.listPods with
  | .error e => .error e
  | .ok pods =>
    let peers := build_peers pods
    let calls := if w.dnsReady then peers.map (fun p => (fqdn_for_pod cfg p.name, p.ip)) else []
    match upsert_configmap cfg peers w.sinkRead w.sinkReplaceErr w.sinkCreateErr w.now with
    | .error e => .error e
    | .ok wr => .ok (calls, wr)

/-- What an event handler did: how many incremental DNS calls it made (the
single upsert-with-retry or delete), how many full reconciliation passes it
triggered, and whether the inner `reconcile_all` raised (and was swallowed by
the `try/except` of the handler). -/
structure HTrace where
  dnsCalls : Nat
  reconciles : Nat
  recFailed : Bool
deriving DecidableEq

/-- Source function `handle_pod_added(pod)`: return early on a missing pod, a selector
mismatch or a missing IP; otherwise make one incremental upsert-with-retry
(which cannot raise) and then run `reconcile_all` inside `try/except`.  The
handler itself never raises: every branch is `.ok`. -/
def handle_pod_added (cfg : Config) (w : World) (pod? : Option PodView) :
    Except Nat HTrace :=
  match pod? with
  | none => .ok ⟨0, 0, false⟩
  | some pod =>
    if matchSelector (pod.labels.getD []) cfg.selector = false then .ok ⟨0, 0, false⟩
    else
      match ipOf pod with
      | none => .ok ⟨0, 0, false⟩
      | some ip =>
        let _ok := w.upsertOk (fqdn_for_pod cfg pod.name) ip
        match reconcile_all cfg w with
        | .ok _ => .ok ⟨1, 1, false⟩
        | .error _ => .ok ⟨1, 1, true⟩

/-- Source function `handle_pod_deleted(pod)`: return early on a missing pod or a selector
mismatch; otherwise attempt one DNS delete inside `try/except` and then run
`reconcile_all` inside `try/except`.  Never raises. -/
def handle_pod_deleted (cfg : Config) (w : World) (pod? : Option PodView) :
    Except Nat HTrace :=
  match pod? with
  | none => .ok ⟨0, 0, false⟩
  | some pod =>
    if matchSelector (pod.labels.getD []) cfg.selector = false then .ok ⟨0, 0, false⟩
    else
      let _del := pdns_delete_a_record w.deleteResp
      match reconcile_all cfg w with
      | .ok _ => .ok ⟨1, 1, false⟩
      | .error _ => .ok ⟨1, 1, true⟩

/-- Source function `_dispatch_event`: route `ADDED`/`MODIFIED` to the add handler and
`DELETED` to the delete handler; any other event type is ignored. -/
def dispatch_event (cfg : Config) (w : World) (etype : Str) (pod? : Option PodView) :
    Except Nat HTrace :=
  if etype = ("ADDED").toList ∨ etype = ("MODIFIED").toList then
    handle_pod_added cfg w pod?
  else if etype = ("DELETED").toList then handle_pod_deleted cfg w pod?
  else .ok ⟨0, 0, false⟩

/-- One iteration of `_periodic_reconciler`: inside `try/except`, run
`reconcile_all` only when DNS is ready.  Never raises. -/
def periodic_tick (cfg : Config) (w : World) : Except Nat HTrace :=
  if w.dnsReady then
    match reconcile_all cfg w with
    | .ok _ => .ok ⟨0, 1, false⟩
    | .error _ => .ok ⟨0, 1, true⟩
  else .ok ⟨0, 0, false⟩

/-- Whether a Python call returned normally (did not raise). -/
def exOk {α : Type} : Except Nat α → Bool
  | .ok _ => true
  | .error _ => false

/-- The guard of the add handler: a pod object is present, its labels match
the selector, and it reports a truthy IP. -/
def addGuard (cfg : Config) (pod? : Option PodView) : Bool :=
  match pod? with
  | none => false
  | some pod => matchSelector (pod.labels.getD []) cfg.selector && (ipOf pod).isSome

/-- The guard of the delete handler: a pod object is present and its labels
match the selector. -/
def delGuard (cfg : Config) (pod? : Option PodView) : Bool :=
  match pod? with
  | none => false
  | some pod => matchSelector (pod.labels.getD []) cfg.selector

/-- Whether a dispatched event passes the guards of the handler it is routed
to (and is therefore acted on rather than ignored). -/
def eventGuard (cfg : Config) (etype : Str) (pod? : Option PodView) : Bool :=
  if etype = ("ADDED").toList ∨ etype = ("MODIFIED").toList then addGuard cfg pod?
  else if etype = ("DELETED").toList then delGuard cfg pod?
  else false

/-! ## Order facts about the sort comparison -/

/-- Head characterisation of the string order. -/
def strLe_cons_iff : ∀ (a b : Char) (as bs : Str),
    (strLe (a :: as) (b :: bs) = true ↔ a < b ∨ (a = b ∧ strLe as bs = true)) := by
  intro a b as bs
  rcases lt_trichotomy a b with h | h | h
  · simp [strLe, h]
  · subst h
    simp [strLe, lt_irrefl]
  · have h2 : ¬ a < b := lt_asymm h
    have h3 : a ≠ b := fun he => absurd (he ▸ h) (lt_irrefl a)
    simp [strLe, h, h2, h3]

/-- The string order is total. -/
def strLe_total : ∀ a b : Str, strLe a b = true ∨ strLe b a = true := by
  intro a
  induction a with
  | nil => intro b; left; rfl
  | cons x xs ih =>
    intro b
    cases b with
    | nil => right; rfl
    | cons y ys =>
      rcases lt_trichotomy x y with h | h | h
      · left; rw [strLe_cons_iff]; exact Or.inl h
      · subst h
        rcases ih ys with h2 | h2
        · left; rw [strLe_cons_iff]; exact Or.inr ⟨rfl, h2⟩
        · right; rw [strLe_cons_iff]; exact Or.inr ⟨rfl, h2⟩
      · right; rw [strLe_cons_iff]; exact Or.inl h

/-- The string order is transitive. -/
def strLe_trans : ∀ a b c : Str, strLe a b = true → strLe b c = true → strLe a c = true := by
  intro a
  induction a with
  | nil => intro b c _ _; rfl
  | cons x xs ih =>
    intro b c hab hbc
    cases b with
    | nil => exact absurd hab (by simp [strLe])
    | cons y ys =>
      cases c with
      | nil => exact absurd hbc (by simp [strLe])
      | cons z zs =>
        rw [strLe_cons_iff] at hab hbc ⊢
        rcases hab with h1 | ⟨rfl, h1⟩
        · rcases hbc with h2 | ⟨rfl, h2⟩
          · exact Or.inl (lt_trans h1 h2)
          · exact Or.inl h1
        · rcases hbc with h2 | ⟨rfl, h2⟩
          · exact Or.inl h2
          · exact Or.inr ⟨rfl, ih ys zs h1 h2⟩

/-- The string order is antisymmetric. -/
def strLe_antisymm : ∀ a b : Str, strLe a b = true → strLe b a = true → a = b := by
  intro a
  induction a with
  | nil =>
    intro b _ hba
    cases b with
    | nil => rfl
    | cons y ys => exact absurd hba (by simp [strLe])
  | cons x xs ih =>
    intro b hab hba
    cases b with
    | nil => exact absurd hab (by simp [strLe])
    | cons y ys =>
      rw [strLe_cons_iff] at hab hba
      rcases hab with h1 | ⟨rfl, h1⟩
      · rcases hba with h2 | ⟨he, _⟩
        · exact absurd h1 (lt_asymm h2)
        · exact absurd (he ▸ h1) (lt_irrefl y)
      · rcases hba with h2 | ⟨_, h2⟩
        · exact absurd h2 (lt_irrefl x)
        · rw [ih ys h1 h2]

/-- The peer comparison is total. -/
def peerLe_total : ∀ a b : Peer, peerLe a b = true ∨ peerLe b a = true := by
  intro a b
  unfold peerLe
  by_cases h : a.ns = b.ns
  · rw [if_pos h, if_pos h.symm]
    exact strLe_total a.name b.name
  · rw [if_neg h, if_neg (fun e => h e.symm)]
    exact strLe_total a.ns b.ns

/-- The peer comparison is transitive. -/
def peerLe_trans : ∀ a b c : Peer,
    peerLe a b = true → peerLe b c = true → peerLe a c = true := by
  intro a b c h1 h2
  unfold peerLe at h1 h2 ⊢
  by_cases hab : a.ns = b.ns
  · rw [if_pos hab] at h1
    by_cases hbc : b.ns = c.ns
    · rw [if_pos hbc] at h2
      rw [if_pos (hab.trans hbc)]
      exact strLe_trans _ _ _ h1 h2
    · rw [if_neg hbc] at h2
      rw [if_neg (fun e => hbc (hab ▸ e)), hab]
      exact h2
  · rw [if_neg hab] at h1
    by_cases hbc : b.ns = c.ns
    · rw [if_neg (fun e => hab (e.trans hbc.symm)), ← hbc]
      exact h1
    · rw [if_neg hbc] at h2
      by_cases hac : a.ns = c.ns
      · exact absurd (strLe_antisymm _ _ h1 (hac ▸ h2)) hab
      · rw [if_neg hac]
        exact strLe_trans _ _ _ h1 h2

/-- Mutually related peers have the same sort key. -/
def peerLe_key_antisymm : ∀ a b : Peer,
    peerLe a b = true → peerLe b a = true → peerKey a = peerKey b := by
  intro a b h1 h2
  unfold peerLe at h1 h2
  unfold peerKey
  by_cases h : a.ns = b.ns
  · rw [if_pos h] at h1
    rw [if_pos h.symm] at h2
    rw [h, strLe_antisymm _ _ h1 h2]
  · rw [if_neg h] at h1
    rw [if_neg (fun e => h e.symm)] at h2
    exact absurd (strLe_antisymm _ _ h1 h2) h

instance : IsTotal Peer peerLeP := ⟨peerLe_total⟩

instance : IsTrans Peer peerLeP := ⟨peerLe_trans⟩

/-- Strict version of the peer comparison: related and with distinct keys.
Two lists sorted by this relation that are permutations of each other are
equal, which is what makes `build_peers` order-insensitive on inputs with
distinct `(namespace, name)` keys. -/
def peerLtK (a b : Peer) : Prop := peerLe a b = true ∧ peerKey a ≠ peerKey b

instance : IsAntisymm Peer peerLtK :=
  ⟨fun _ _ h1 h2 => absurd (peerLe_key_antisymm _ _ h1.1 h2.1) h1.2⟩

/-! ## Concrete configurations, pods and worlds for counterexamples and
witnesses -/

/-- The default controller configuration (the documented environment
defaults). -/
def cfgDefault : Config :=
  { recPref := [],
    zone := ("example.com.").toList,
    selector := ("dns=true").toList,
    cmName := ("pod-peers").toList,
    cmNs := ("default").toList,
    fileJson := ("peers.json").toList,
    fileList := ("peers.txt").toList,
    bumpKey := ("peers.lastUpdate").toList }

/-- A configuration whose record prefix starts with a dot. -/
def cfgDot : Config := { cfgDefault with recPref := (".").toList }

/-- A pod with an IP whose labels do not match the default selector. -/
def podNoMatch : PodView :=
  ⟨("p").toList, ("default").toList, some [(("app").toList, ("x").toList)],
    some ⟨some (("10.0.0.1").toList)⟩⟩

/-- A matching pod with an IP. -/
def podIp1 : PodView :=
  ⟨("p1").toList, ("a").toList, some [(("dns").toList, ("true").toList)],
    some ⟨some (("10.0.0.1").toList)⟩⟩

/-- A second pod with the same `(namespace, name)` key as `podIp1` but a
different IP. -/
def podIp2 : PodView :=
  ⟨("p1").toList, ("a").toList, some [(("dns").toList, ("true").toList)],
    some ⟨some (("10.0.0.2").toList)⟩⟩

/-- A pod with a distinct `(namespace, name)` key and its own IP. -/
def podIp3 : PodView :=
  ⟨("p2").toList, ("a").toList, some [(("dns").toList, ("true").toList)],
    some ⟨some (("10.0.0.3").toList)⟩⟩

/-- The peer projected from `podIp1`. -/
def peerIp1 : Peer := ⟨("p1").toList, ("a").toList, ("10.0.0.1").toList⟩

/-- A world where everything works except the sink: reading the ConfigMap
raises `ApiException` with status 500. -/
def wSink500 : World :=
  ⟨.ok [], true, fun _ _ => true, (200, []), .error 500, none, none, 0⟩

/-- A healthy world (sink read yields 404, so the pass creates the document). -/
def wHealthy : World :=
  ⟨.ok [], true, fun _ _ => true, (200, []), .error 404, none, none, 0⟩

/-- A world with DNS not ready, one listed pod, and a failing sink read
(status 500). -/
def wDnsDownSinkBad : World :=
  ⟨.ok [podIp1], false, fun _ _ => true, (200, []), .error 500, none, none, 0⟩

/-- A world with DNS not ready and a working (empty) sink. -/
def wDnsDownOk : World :=
  ⟨.ok [podIp1], false, fun _ _ => true, (200, []), .error 404, none, none, 0⟩

/-- An existing sink ConfigMap with a foreign annotation, nonzero extra
metadata and stale data. -/
def cmExisting : ConfigMap :=
  ⟨⟨("pod-peers").toList, ("default").toList,
      some [(("owner").toList, ("team-a").toList)], 7⟩,
    [(("stale").toList, ("old").toList)]⟩

/-- The HTTP responses of a DNS upsert endpoint that fails (status 500) on
its first `N` calls and succeeds (status 204) afterwards. -/
def failNResp (N : Nat) : Nat → Nat × Str :=
  fun i => if i < N then (500, ("server error").toList) else (204, [])

/-! ## Helper lemmas -/

/-- A projected IP is never the empty string. -/
theorem ipOf_ne_nil {p : PodView} {ip : Str} (h : ipOf p = some ip) : ip ≠ [] := by
  obtain ⟨nm, ns, lb, st⟩ := p
  cases st with
  | none => exact absurd h (by simp [ipOf])
  | some s =>
    obtain ⟨ipq⟩ := s
    cases ipq with
    | none => exact absurd h (by simp [ipOf])
    | some ip0 =>
      simp only [ipOf] at h
      by_cases he : ip0 = []
      · rw [if_pos he] at h; cases h
      · rw [if_neg he] at h
        injection h with h
        exact h ▸ he

/-- The matcher loop is the conjunction of per-clause satisfaction. -/
theorem matchClauses_eq_all (labels : List (Str × Str)) (cs : List Str) :
    matchClauses labels cs = cs.all (clauseHolds labels) := by
  induction cs with
  | nil => rfl
  | cons c rest ih =>
    by_cases h1 : pyStrip c = []
    · simp [matchClauses, clauseHolds, h1, ih]
    · cases hsp : splitFirstEq (pyStrip c) with
      | none =>
        by_cases h2 : hasKey labels (pyStrip c) = true <;>
          simp [matchClauses, clauseHolds, h1, hsp, h2, ih]
      | some kv =>
        obtain ⟨k, v⟩ := kv
        by_cases h2 : lookupA labels (pyStrip k) = some (pyStrip v) <;>
          simp [matchClauses, clauseHolds, h1, hsp, h2, ih]

/-- Characterisation of the retry loop against an endpoint failing its first
`N` calls: starting at call index `i ≤ N` with `k` attempts left, it succeeds
(with `N + 1` total calls) iff the budget reaches index `N`. -/
theorem retryFrom_failN (N : Nat) : ∀ (k i : Nat), i ≤ N →
    retryFrom (failNResp N) k i = if N < i + k then (true, N + 1) else (false, i + k) := by
  intro k
  induction k with
  | zero =>
    intro i hi
    rw [if_neg (by omega)]
    rfl
  | succ k ih =>
    intro i hi
    by_cases hie : i = N
    · subst hie
      have hup : pdns_upsert_a_record (failNResp i i) = .ok () := by
        unfold failNResp pdns_upsert_a_record
        rw [if_neg (lt_irrefl i)]
        rfl
      rw [if_pos (by omega)]
      unfold retryFrom
      rw [hup]
    · have hlt : i < N := lt_of_le_of_ne hi hie
      have hup : pdns_upsert_a_record (failNResp N i) = .error (500, ("server error").toList) := by
        unfold failNResp pdns_upsert_a_record
        rw [if_pos hlt]
        rfl
      unfold retryFrom
      rw [hup]
      rw [ih (i + 1) (by omega)]
      have harith : i + 1 + k = i + (k + 1) := by omega
      rw [harith]

/-- Dict update under a different key does not change lookups
(map branch of `updAnn`). -/
theorem lookupA_mapUpd_ne (m : List (Str × Str)) (key v k : Str) (hk : k ≠ key) :
    lookupA (m.map (fun p => if p.1 = key then (key, v) else p)) k = lookupA m k := by
  induction m with
  | nil => rfl
  | cons p rest ih =>
    by_cases hp : p.1 = key
    · have hnk : ¬ key = k := fun he => hk he.symm
      have hnpk : ¬ p.1 = k := by rw [hp]; exact hnk
      simp only [List.map_cons, if_pos hp, lookupA, if_neg hnk, if_neg hnpk]
      exact ih
    · simp only [List.map_cons, if_neg hp, lookupA]
      by_cases hpk : p.1 = k
      · rw [if_pos hpk, if_pos hpk]
      · rw [if_neg hpk, if_neg hpk]
        exact ih

/-- Dict insertion of a fresh key at the end does not change other lookups. -/
theorem lookupA_append_ne (m : List (Str × Str)) (key v k : Str) (hk : k ≠ key) :
    lookupA (m ++ [(key, v)]) k = lookupA m k := by
  induction m with
  | nil =>
    simp only [List.nil_append, lookupA]
    rw [if_neg (fun he => hk he.symm)]
  | cons p rest ih =>
    simp only [List.cons_append, lookupA]
    by_cases hpk : p.1 = k
    · rw [if_pos hpk, if_pos hpk]
    · rw [if_neg hpk, if_neg hpk]
      exact ih

/-- Python dict assignment `d[key] = v` leaves the lookup of every other key
unchanged. -/
theorem lookupA_updAnn_ne (m : List (Str × Str)) (key v k : Str) (hk : k ≠ key) :
    lookupA (updAnn m key v) k = lookupA m k := by
  unfold updAnn
  by_cases hc : m.any (fun p => p.1 = key) = true
  · rw [if_pos hc]
    exact lookupA_mapUpd_ne m key v k hk
  · rw [if_neg hc]
    exact lookupA_append_ne m key v k hk

/-- The add handler returns normally in every branch, with at most one
incremental DNS call and at most one reconciliation. -/
theorem handle_pod_added_cases (cfg : Config) (w : World) (pod? : Option PodView) :
    handle_pod_added cfg w pod? = .ok ⟨0, 0, false⟩ ∨
    handle_pod_added cfg w pod? = .ok ⟨1, 1, false⟩ ∨
    handle_pod_added cfg w pod? = .ok ⟨1, 1, true⟩ := by
  cases pod? with
  | none => exact Or.inl rfl
  | some pod =>
    simp only [handle_pod_added]
    by_cases h : matchSelector (pod.labels.getD []) cfg.selector = false
    · rw [if_pos h]
      exact Or.inl rfl
    · rw [if_neg h]
      cases hip : ipOf pod with
      | none => exact Or.inl rfl
      | some ip =>
        cases hrec : reconcile_all cfg w with
        | ok r => exact Or.inr (Or.inl rfl)
        | error e => exact Or.inr (Or.inr rfl)

/-- The delete handler returns normally in every branch, with at most one
incremental DNS call and at most one reconciliation. -/
theorem handle_pod_deleted_cases (cfg : Config) (w : World) (pod? : Option PodView) :
    handle_pod_deleted cfg w pod? = .ok ⟨0, 0, false⟩ ∨
    handle_pod_deleted cfg w pod? = .ok ⟨1, 1, false⟩ ∨
    handle_pod_deleted cfg w pod? = .ok ⟨1, 1, true⟩ := by
  cases pod? with
  | none => exact Or.inl rfl
  | some pod =>
    simp only [handle_pod_deleted]
    by_cases h : matchSelector (pod.labels.getD []) cfg.selector = false
    · rw [if_pos h]
      exact Or.inl rfl
    · rw [if_neg h]
      cases hrec : reconcile_all cfg w with
      | ok r => exact Or.inr (Or.inl rfl)
      | error e => exact Or.inr (Or.inr rfl)

/-- Event dispatch returns normally with one of the three handler traces. -/
theorem dispatch_event_cases (cfg : Config) (w : World) (etype : Str) (pod? : Option PodView) :
    dispatch_event cfg w etype pod? = .ok ⟨0, 0, false⟩ ∨
    dispatch_event cfg w etype pod? = .ok ⟨1, 1, false⟩ ∨
    dispatch_event cfg w etype pod? = .ok ⟨1, 1, true⟩ := by
  unfold dispatch_event
  by_cases h1 : etype = ("ADDED").toList ∨ etype = ("MODIFIED").toList
  · rw [if_pos h1]
    exact handle_pod_added_cases cfg w pod?
  · rw [if_neg h1]
    by_cases h2 : etype = ("DELETED").toList
    · rw [if_pos h2]
      exact handle_pod_deleted_cases cfg w pod?
    · rw [if_neg h2]
      exact Or.inl rfl

/-- A periodic-timer iteration returns normally in every branch. -/
theorem periodic_tick_cases (cfg : Config) (w : World) :
    periodic_tick cfg w = .ok ⟨0, 0, false⟩ ∨
    periodic_tick cfg w = .ok ⟨0, 1, false⟩ ∨
    periodic_tick cfg w = .ok ⟨0, 1, true⟩ := by
  unfold periodic_tick
  by_cases h : w.dnsReady = true
  · rw [if_pos h]
    cases hrec : reconcile_all cfg w with
    | ok r => exact Or.inr (Or.inl rfl)
    | error e => exact Or.inr (Or.inr rfl)
  · rw [if_neg h]
    exact Or.inl rfl

/-- When the sink operations succeed — a 404 read followed by a successful
create, or a successful read followed by a successful replace —
`upsert_configmap` returns normally and the written document carries exactly
the two encoded data fields. -/
theorem upsert_configmap_succeeds (cfg : Config) (peers : List Peer)
    (readRes : Except Nat ConfigMap) (replaceErr createErr : Option Nat) (now : Nat)
    (hs : (readRes = .error 404 ∧ createErr = none) ∨
          ((∃ cm, readRes = .ok cm) ∧ replaceErr = none)) :
    ∃ swr : SinkWrite, upsert_configmap cfg peers readRes replaceErr createErr now = .ok swr ∧
      writeData swr = cmData cfg peers := by
  rcases hs with ⟨hs, hw⟩ | ⟨⟨cm, hs⟩, hw⟩ <;> rw [hs, hw] <;> exact ⟨_, rfl, rfl⟩

/-- Updating an existing key makes its lookup return the new value. -/
theorem lookupA_mapUpd_self (m : List (Str × Str)) (key v : Str)
    (hc : m.any (fun p => p.1 = key) = true) :
    lookupA (m.map (fun p => if p.1 = key then (key, v) else p)) key = some v := by
  induction m with
  | nil => cases hc
  | cons p rest ih =>
    by_cases hp : p.1 = key
    · simp [List.map_cons, hp, lookupA]
    · have hc' : rest.any (fun p => p.1 = key) = true := by
        simp only [List.any_cons, Bool.or_eq_true, decide_eq_true_eq] at hc
        rcases hc with hc | hc
        · exact absurd hc hp
        · exact hc
      simp only [List.map_cons, if_neg hp, lookupA, if_neg hp]
      exact ih hc'

/-- Appending a fresh key makes its lookup return the new value. -/
theorem lookupA_append_self (m : List (Str × Str)) (key v : Str)
    (hc : m.any (fun p => p.1 = key) = false) :
    lookupA (m ++ [(key, v)]) key = some v := by
  induction m with
  | nil => simp [lookupA]
  | cons p rest ih =>
    simp only [List.any_cons, Bool.or_eq_false_iff, decide_eq_false_iff_not] at hc
    simp only [List.cons_append, lookupA, if_neg hc.1]
    exact ih hc.2

/-- Python dict assignment `d[key] = v` makes `d[key]` the new value. -/
theorem lookupA_updAnn_self (m : List (Str × Str)) (key v : Str) :
    lookupA (updAnn m key v) key = some v := by
  unfold updAnn
  cases hc : m.any (fun p => p.1 = key) with
  | true => rw [if_pos rfl]; exact lookupA_mapUpd_self m key v hc
  | false =>
    rw [if_neg Bool.false_ne_true]
    exact lookupA_append_self m key v hc

/-! ## The claims -/

/-- C1, counterexample: the claim says `reconcile_all` never raises to its
caller for any cluster/DNS/sink state.  In the world `wSink500` — empty pod
list, DNS ready, but the sink ConfigMap read raising `ApiException` with
status 500 — `reconcile_all` has no `try/except` of its own and propagates
the error to its caller. -/
theorem C1_counterexample : reconcile_all cfgDefault wSink500 = .error 500 := rfl

/-- C1, amended: `reconcile_all` itself propagates internal errors (cluster
list failures, non-404 sink failures) to its caller; it is every caller —
the event handlers behind the dispatcher, and the periodic timer loop — that
catches, logs and swallows those errors, so no dispatched event or timer tick
ever raises outward and the loops continue. -/
theorem C1_amended (cfg : Config) (w : World) (etype : Str) (pod? : Option PodView) :
    exOk (dispatch_event cfg w etype pod?) = true ∧ exOk (periodic_tick cfg w) = true := by
  constructor
  · rcases dispatch_event_cases cfg w etype pod? with h | h | h <;> rw [h] <;> rfl
  · rcases periodic_tick_cases cfg w with h | h | h <;> rw [h] <;> rfl

/-- C2, counterexample: the claim says every dispatched `ADDED`, `MODIFIED`
or `DELETED` event (with any pod object) causes exactly one full
reconciliation.  An `ADDED` event for a pod whose labels do not match the
selector is ignored by the handler: zero DNS calls and zero reconciliations. -/
theorem C2_counterexample :
    ¬ ∃ t : HTrace,
        dispatch_event cfgDefault wHealthy (("ADDED").toList) (some podNoMatch) = .ok t ∧
        t.dnsCalls ≤ 1 ∧ t.reconciles = 1 := by
  rintro ⟨t, ht, -, hr⟩
  have h0 : dispatch_event cfgDefault wHealthy (("ADDED").toList) (some podNoMatch) =
      .ok ⟨0, 0, false⟩ := rfl
  rw [h0] at ht
  injection ht with ht
  rw [← ht] at hr
  exact absurd hr (by decide)

/-- The add handler makes exactly one incremental DNS call and one
reconciliation when its guard passes, and none otherwise. -/
theorem handle_pod_added_trace (cfg : Config) (w : World) (pod? : Option PodView) :
    ∃ t : HTrace, handle_pod_added cfg w pod? = .ok t ∧
      (addGuard cfg pod? = true → t.dnsCalls = 1 ∧ t.reconciles = 1) ∧
      (addGuard cfg pod? = false → t.dnsCalls = 0 ∧ t.reconciles = 0) := by
  cases pod? with
  | none =>
    exact ⟨⟨0, 0, false⟩, rfl, fun h => by simp [addGuard] at h, fun _ => ⟨rfl, rfl⟩⟩
  | some pod =>
    simp only [handle_pod_added, addGuard]
    by_cases hm : matchSelector (pod.labels.getD []) cfg.selector = false
    · rw [if_pos hm, hm]
      exact ⟨⟨0, 0, false⟩, rfl, fun h => by simp at h, fun _ => ⟨rfl, rfl⟩⟩
    · have hm2 : matchSelector (pod.labels.getD []) cfg.selector = true := by
        cases hmv : matchSelector (pod.labels.getD []) cfg.selector
        · exact absurd hmv hm
        · rfl
      rw [if_neg hm, hm2]
      cases hip : ipOf pod with
      | none =>
        exact ⟨⟨0, 0, false⟩, rfl, fun h => by simp at h, fun _ => ⟨rfl, rfl⟩⟩
      | some ip =>
        cases hrec : reconcile_all cfg w with
        | ok r =>
          exact ⟨⟨1, 1, false⟩, rfl, fun _ => ⟨rfl, rfl⟩, fun h => by simp at h⟩
        | error e =>
          exact ⟨⟨1, 1, true⟩, rfl, fun _ => ⟨rfl, rfl⟩, fun h => by simp at h⟩

/-- The delete handler makes exactly one incremental DNS call and one
reconciliation when its guard passes, and none otherwise. -/
theorem handle_pod_deleted_trace (cfg : Config) (w : World) (pod? : Option PodView) :
    ∃ t : HTrace, handle_pod_deleted cfg w pod? = .ok t ∧
      (delGuard cfg pod? = true → t.dnsCalls = 1 ∧ t.reconciles = 1) ∧
      (delGuard cfg pod? = false → t.dnsCalls = 0 ∧ t.reconciles = 0) := by
  cases pod? with
  | none =>
    exact ⟨⟨0, 0, false⟩, rfl, fun h => by simp [delGuard] at h, fun _ => ⟨rfl, rfl⟩⟩
  | some pod =>
    simp only [handle_pod_deleted, delGuard]
    by_cases hm : matchSelector (pod.labels.getD []) cfg.selector = false
    · rw [if_pos hm, hm]
      exact ⟨⟨0, 0, false⟩, rfl, fun h => by simp at h, fun _ => ⟨rfl, rfl⟩⟩
    · have hm2 : matchSelector (pod.labels.getD []) cfg.selector = true := by
        cases hmv : matchSelector (pod.labels.getD []) cfg.selector
        · exact absurd hmv hm
        · rfl
      rw [if_neg hm, hm2]
      cases hrec : reconcile_all cfg w with
      | ok r =>
        exact ⟨⟨1, 1, false⟩, rfl, fun _ => ⟨rfl, rfl⟩, fun h => by simp at h⟩
      | error e =>
        exact ⟨⟨1, 1, true⟩, rfl, fun _ => ⟨rfl, rfl⟩, fun h => by simp at h⟩

/-- C2, amended: every dispatched watch event causes at most one incremental
DNS call and at most one full reconciliation pass; exactly one of each when
the event passes the handler guards (pod object present, selector matches,
and — for `ADDED`/`MODIFIED` — a truthy pod IP), and none otherwise. -/
theorem C2_amended (cfg : Config) (w : World) (etype : Str) (pod? : Option PodView) :
    ∃ t : HTrace, dispatch_event cfg w etype pod? = .ok t ∧
      t.dnsCalls ≤ 1 ∧ t.reconciles ≤ 1 ∧
      (eventGuard cfg etype pod? = true → t.dnsCalls = 1 ∧ t.reconciles = 1) ∧
      (eventGuard cfg etype pod? = false → t.dnsCalls = 0 ∧ t.reconciles = 0) := by
  unfold dispatch_event eventGuard
  by_cases h1 : etype = ("ADDED").toList ∨ etype = ("MODIFIED").toList
  · rw [if_pos h1, if_pos h1]
    obtain ⟨t, ht, hpos, hneg⟩ := handle_pod_added_trace cfg w pod?
    have hb : t.dnsCalls ≤ 1 ∧ t.reconciles ≤ 1 := by
      cases hg : addGuard cfg pod?
      · obtain ⟨ha, hb⟩ := hneg hg
        rw [ha, hb]
        exact ⟨Nat.zero_le 1, Nat.zero_le 1⟩
      · obtain ⟨ha, hb⟩ := hpos hg
        rw [ha, hb]
        exact ⟨le_refl 1, le_refl 1⟩
    exact ⟨t, ht, hb.1, hb.2, hpos, hneg⟩
  · rw [if_neg h1, if_neg h1]
    by_cases h2 : etype = ("DELETED").toList
    · rw [if_pos h2, if_pos h2]
      obtain ⟨t, ht, hpos, hneg⟩ := handle_pod_deleted_trace cfg w pod?
      have hb : t.dnsCalls ≤ 1 ∧ t.reconciles ≤ 1 := by
        cases hg : delGuard cfg pod?
        · obtain ⟨ha, hb⟩ := hneg hg
          rw [ha, hb]
          exact ⟨Nat.zero_le 1, Nat.zero_le 1⟩
        · obtain ⟨ha, hb⟩ := hpos hg
          rw [ha, hb]
          exact ⟨le_refl 1, le_refl 1⟩
      exact ⟨t, ht, hb.1, hb.2, hpos, hneg⟩
    · rw [if_neg h2, if_neg h2]
      exact ⟨⟨0, 0, false⟩, rfl, Nat.zero_le 1, Nat.zero_le 1,
        fun h => absurd h (by decide), fun _ => ⟨rfl, rfl⟩⟩

/-- C2, witness: an `ADDED` event for a matching pod with an IP passes the
guard and yields exactly one incremental DNS call and one reconciliation. -/
theorem C2_witness :
    eventGuard cfgDefault (("ADDED").toList) (some podIp1) = true ∧
    ∃ t : HTrace, dispatch_event cfgDefault wHealthy (("ADDED").toList) (some podIp1) = .ok t ∧
      t.dnsCalls = 1 ∧ t.reconciles = 1 := by
  refine ⟨by decide, ?_⟩
  obtain ⟨t, ht, -, -, hpos, -⟩ :=
    C2_amended cfgDefault wHealthy (("ADDED").toList) (some podIp1)
  obtain ⟨h1, h2⟩ := hpos (by decide)
  exact ⟨t, ht, h1, h2⟩

/-- C3, counterexample: the claim describes the equals clause as requiring
`labels[key] == value` with the key and value taken directly from the split.
The source additionally strips the key and the value, so for labels
`{"k": "v"}` and selector `"k = v"` the source matches while the reading of the claim does not. -/
theorem C3_counterexample :
    matchSelector [(("k").toList, ("v").toList)] (("k = v").toList) = true ∧
    ¬ (∀ c ∈ splitOnChar ',' (("k = v").toList),
        clauseHoldsClaimed [(("k").toList, ("v").toList)] c = true) := by decide

/-- C3, amended: `matches(L, S)` is true iff every clause of S is satisfied
by L, where the empty selector matches everything, clauses are the trimmed
comma-separated pieces, empty clauses are skipped, an equals clause is split
at its first equals sign into a key and a value which are EACH TRIMMED before
requiring `labels[key] == value` (missing key means no match), and a clause
without an equals sign requires its key to be present. -/
theorem C3_amended (labels : List (Str × Str)) (S : Str) :
    matchSelector labels S = true ↔
      ∀ c ∈ splitOnChar ',' S, clauseHolds labels c = true := by
  unfold matchSelector
  by_cases hS : S = []
  · subst hS
    rw [if_pos rfl]
    constructor
    · intro _ c hc
      have hc' : c = [] := by simpa [splitOnChar] using hc
      subst hc'
      rfl
    · intro _
      rfl
  · rw [if_neg hS, matchClauses_eq_all, List.all_eq_true]

/-- C3, witness: the amended equivalence applied to the default selector. -/
theorem C3_witness :
    matchSelector [(("dns").toList, ("true").toList)] (("dns=true").toList) = true ∧
    ∀ c ∈ splitOnChar ',' (("dns=true").toList),
      clauseHolds [(("dns").toList, ("true").toList)] c = true :=
  ⟨(C3_amended [(("dns").toList, ("true").toList)] (("dns=true").toList)).mpr (by decide),
    by decide⟩

/-- C4: against a DNS endpoint failing its first `N` calls and succeeding on
call `N+1`, `pdns_upsert_with_retry` returns `true` iff `N < attempts`
(`false` otherwise) and invokes the underlying upsert exactly
`min(N+1, attempts)` times.  No exception propagates: the outcome of every attempt
is consumed by the `try/except` of the loop (the `match` in `retryFrom`) and
the wrapper returns a plain Boolean. -/
theorem C4_retry (N attempts : Nat) :
    pdns_upsert_with_retry (failNResp N) attempts =
      (decide (N < attempts), min (N + 1) attempts) := by
  unfold pdns_upsert_with_retry
  rw [retryFrom_failN N attempts 0 (Nat.zero_le N)]
  by_cases h : N < attempts
  · rw [if_pos (by omega)]
    have h1 : decide (N < attempts) = true := decide_eq_true h
    have h2 : min (N + 1) attempts = N + 1 := by omega
    rw [h1, h2]
  · rw [if_neg (by omega)]
    have h1 : decide (N < attempts) = false := decide_eq_false h
    have h2 : min (N + 1) attempts = attempts := by omega
    rw [h1, h2, Nat.zero_add]

/-- C5: `build_peers` returns exactly the pods that report a truthy IP (a
permutation of the filter-map projection), each mapped to
`{name, namespace, ip}`, sorted ascending by `(namespace, name)`; every peer
in the output has a non-empty IP. -/
theorem C5_projection (pods : List PodView) :
    List.Perm (build_peers pods) (pods.filterMap podToPeer) ∧
    List.Sorted peerLeP (build_peers pods) ∧
    ∀ q ∈ build_peers pods, q.ip ≠ [] := by
  refine ⟨List.perm_insertionSort peerLeP (pods.filterMap podToPeer),
    List.sorted_insertionSort peerLeP (pods.filterMap podToPeer), ?_⟩
  intro q hq
  have hq' : q ∈ pods.filterMap podToPeer :=
    (List.perm_insertionSort peerLeP (pods.filterMap podToPeer)).subset hq
  rcases List.mem_filterMap.mp hq' with ⟨p, -, hp⟩
  cases hip : ipOf p with
  | none => simp [podToPeer, hip] at hp
  | some ip =>
    simp only [podToPeer, hip, Option.some.injEq] at hp
    subst hp
    exact ipOf_ne_nil hip

/-- C5, witness: the projection evaluated on a singleton pod list. -/
theorem C5_witness : peerIp1 ∈ build_peers [podIp1] ∧ peerIp1.ip ≠ [] :=
  ⟨by decide, (C5_projection [podIp1]).2.2 peerIp1 (by decide)⟩

/-- C6, counterexample: the claim quantifies over every pod list and every
permutation, but the sort key is only `(namespace, name)`: two pods sharing
that key with different IPs keep their input order (the sort is stable), so
permuting them changes the output. -/
theorem C6_counterexample :
    List.Perm [podIp1, podIp2] [podIp2, podIp1] ∧
    build_peers [podIp1, podIp2] ≠ build_peers [podIp2, podIp1] := by decide

/-- C6, amended: `build_peers` is deterministic under input reordering
provided no two projected peers share a `(namespace, name)` key: for every
pod list `P` and permutation `Q` of `P` whose projected key list has no
duplicates, the outputs are identical (hence so is any serialization of
them). -/
theorem C6_amended (P Q : List PodView) (hp : List.Perm P Q)
    (hnd : (List.map peerKey (P.filterMap podToPeer)).Nodup) :
    build_peers P = build_peers Q := by
  have hfm : List.Perm (P.filterMap podToPeer) (Q.filterMap podToPeer) :=
    hp.filterMap podToPeer
  have hbP : List.Perm (build_peers P) (P.filterMap podToPeer) :=
    List.perm_insertionSort peerLeP (P.filterMap podToPeer)
  have hbQ : List.Perm (build_peers Q) (Q.filterMap podToPeer) :=
    List.perm_insertionSort peerLeP (Q.filterMap podToPeer)
  have hPQ : List.Perm (build_peers P) (build_peers Q) :=
    hbP.trans (hfm.trans hbQ.symm)
  have hndP : (List.map peerKey (build_peers P)).Nodup :=
    ((hbP.map peerKey).nodup_iff).mpr hnd
  have hndQ : (List.map peerKey (build_peers Q)).Nodup :=
    ((hPQ.map peerKey).nodup_iff).mp hndP
  have hsP : List.Pairwise peerLtK (build_peers P) := by
    have h1 : List.Sorted peerLeP (build_peers P) :=
      List.sorted_insertionSort peerLeP (P.filterMap podToPeer)
    have h2 := List.pairwise_map.mp hndP
    exact h1.and h2
  have hsQ : List.Pairwise peerLtK (build_peers Q) := by
    have h1 : List.Sorted peerLeP (build_peers Q) :=
      List.sorted_insertionSort peerLeP (Q.filterMap podToPeer)
    have h2 := List.pairwise_map.mp hndQ
    exact h1.and h2
  exact List.eq_of_perm_of_sorted hPQ hsP hsQ

/-- C6, witness: the amended determinism applied to two distinct-key pods in
both orders. -/
theorem C6_witness : build_peers [podIp1, podIp3] = build_peers [podIp3, podIp1] :=
  C6_amended [podIp1, podIp3] [podIp3, podIp1] (by decide) (by decide)

/-- C7, counterexample: the claim says a pass with DNS not ready still
publishes the peer list and does not raise.  With DNS not ready and the sink
read raising status 500, the pass raises and publishes nothing. -/
theorem C7_counterexample : reconcile_all cfgDefault wDnsDownSinkBad = .error 500 := rfl

/-- C7, amended: in a reconciliation pass where DNS is not ready, no DNS
upsert is issued and the sink publish still happens (not gated on DNS
readiness); provided the cluster list succeeds and the sink operations
succeed — the read 404s and the create succeeds, or the read succeeds and the
replace succeeds — the pass returns normally with the current peer list
published. -/
theorem C7_amended (cfg : Config) (w : World) (pods : List PodView)
    (hl : w.listPods = .ok pods) (hd : w.dnsReady = false)
    (hs : (w.sinkRead = .error 404 ∧ w.sinkCreateErr = none) ∨
          ((∃ cm, w.sinkRead = .ok cm) ∧ w.sinkReplaceErr = none)) :
    ∃ wr : SinkWrite, reconcile_all cfg w = .ok ([], wr) ∧
      writeData wr = cmData cfg (build_peers pods) := by
  obtain ⟨swr, hswr, hdata⟩ :=
    upsert_configmap_succeeds cfg (build_peers pods) w.sinkRead w.sinkReplaceErr
      w.sinkCreateErr w.now hs
  refine ⟨swr, ?_, hdata⟩
  simp only [reconcile_all, hl, hd, Bool.false_eq_true, if_false, hswr]

/-- C7, witness: the amended statement at a concrete DNS-down world. -/
theorem C7_witness :
    ∃ wr : SinkWrite, reconcile_all cfgDefault wDnsDownOk = .ok ([], wr) ∧
      writeData wr = cmData cfgDefault (build_peers [podIp1]) :=
  C7_amended cfgDefault wDnsDownOk [podIp1] rfl rfl (Or.inl ⟨rfl, rfl⟩)

/-- C8: a DNS delete receiving a response with status `>= 400` succeeds
(raises nothing) exactly when `"not found"` occurs case-insensitively in the
body, and raises the `DnsError` (the response) for every other such
response. -/
theorem C8_delete (status : Nat) (body : Str) (h : 400 ≤ status) :
    (containsSub (("not found").toList) (lowerStr body) = true →
        pdns_delete_a_record (status, body) = .ok ()) ∧
    (containsSub (("not found").toList) (lowerStr body) = false →
        pdns_delete_a_record (status, body) = .error (status, body)) := by
  constructor
  · intro hc
    unfold pdns_delete_a_record
    rw [if_neg (fun hcon => hcon.2 hc)]
  · intro hc
    unfold pdns_delete_a_record
    rw [if_pos ⟨h, by rw [hc]; exact Bool.false_ne_true⟩]

/-- C8, witness: a 404 whose body says "Not Found" is treated as success. -/
theorem C8_witness :
    (400 : Nat) ≤ 404 ∧ pdns_delete_a_record (404, ("Domain Not Found").toList) = .ok () :=
  ⟨by decide, (C8_delete 404 (("Domain Not Found").toList) (by decide)).1 (by decide)⟩

/-- C9, counterexample: the claim says the record key is exactly
`<prefix><pod-name>.<zone>`; the source strips leading and trailing dots from
the concatenation first, so with prefix `"."` and pod `"p"` the key differs
from the claimed string. -/
theorem C9_counterexample :
    fqdn_for_pod cfgDot (("p").toList) ≠ fqdnClaimed cfgDot (("p").toList) := by decide

/-- C9, amended: the record key is the prefix concatenated with the pod name
with leading and trailing dot characters stripped, followed by a dot and
the zone; when the concatenation has no leading or trailing dots this is
exactly `<prefix><pod-name>.<zone>`. -/
theorem C9_amended (cfg : Config) (podName : Str)
    (h : stripWith (fun c => c = '.') (cfg.recPref ++ podName) = cfg.recPref ++ podName) :
    fqdn_for_pod cfg podName = fqdnClaimed cfg podName := by
  unfold fqdn_for_pod fqdnClaimed
  rw [h, List.append_assoc]

/-- C9, witness: the amended statement at the default (empty) prefix. -/
theorem C9_witness :
    stripWith (fun c => c = '.') (cfgDefault.recPref ++ ("p").toList) =
        cfgDefault.recPref ++ ("p").toList ∧
    fqdn_for_pod cfgDefault (("p").toList) = fqdnClaimed cfgDefault (("p").toList) :=
  ⟨by decide, C9_amended cfgDefault (("p").toList) (by decide)⟩

/-- C10: when the sink ConfigMap exists (the read succeeds) and the replace
write goes through, the publish issues a replace whose
document has exactly the two freshly encoded data fields, carries over the
existing name, namespace and all other metadata unchanged, sets the
last-update annotation to the current timestamp, and preserves every
annotation under any other key. -/
theorem C10_sink_frame (cfg : Config) (peers : List Peer) (existing : ConfigMap)
    (createErr : Option Nat) (now : Nat) :
    ∃ cm : ConfigMap,
      upsert_configmap cfg peers (.ok existing) none createErr now = .ok (.replace cm) ∧
      cm.data = cmData cfg peers ∧
      cm.metadata.name = existing.metadata.name ∧
      cm.metadata.ns = existing.metadata.ns ∧
      cm.metadata.restMeta = existing.metadata.restMeta ∧
      lookupA (cm.metadata.annotations.getD []) cfg.bumpKey = some (natToStr now) ∧
      ∀ k : Str, k ≠ cfg.bumpKey →
        lookupA (cm.metadata.annotations.getD []) k =
          lookupA (existing.metadata.annotations.getD []) k := by
  refine ⟨_, rfl, rfl, rfl, rfl, rfl, ?_, ?_⟩
  · exact lookupA_updAnn_self _ _ _
  · intro k hk
    exact lookupA_updAnn_ne _ _ _ _ hk

/-- C10, witness: the frame property evaluated on a concrete existing
document with a foreign annotation and extra metadata. -/
theorem C10_witness :
    ∃ cm : ConfigMap,
      upsert_configmap cfgDefault [] (.ok cmExisting) none none 5 = .ok (.replace cm) ∧
      cm.data = cmData cfgDefault [] ∧
      cm.metadata.name = cmExisting.metadata.name ∧
      cm.metadata.ns = cmExisting.metadata.ns ∧
      cm.metadata.restMeta = cmExisting.metadata.restMeta ∧
      lookupA (cm.metadata.annotations.getD []) cfgDefault.bumpKey = some (natToStr 5) ∧
      ∀ k : Str, k ≠ cfgDefault.bumpKey →
        lookupA (cm.metadata.annotations.getD []) k =
          lookupA (cmExisting.metadata.annotations.getD []) k :=
  C10_sink_frame cfgDefault [] cmExisting none 5
